import Mathlib

/-!
VideoFrame (include/private/media/VideoFrame.h)

A shallow embedding of `android::VideoFrame`: the header structure, its
constructor with the two overflow-checked multiplications, `init`, and the
three layout accessors, followed by theorems about them.

Conventions of the embedding.
* `uint32_t` / `size_t` values are natural numbers; every narrowing or
  wrapping the C++ performs is written as an explicit `%`.
* A pointer into the flattened frame is a byte offset counted from `this`
  (so `this` itself is offset 0).
* The bytes that follow the structure in its backing buffer are a list; a
  `memcpy` that would leave that list (undefined behaviour in C++) is `none`.
-/

set_option linter.dupNamespace false

namespace android

/-- Largest value of a `uint32_t`. -/
def UINT32_MAX : Nat := 4294967295

/-- One byte of the backing buffer. -/
abbrev Byte := UInt8

/-- Result of `__builtin_mul_overflow(a, b, &res)` on `uint32_t` operands: the
returned flag (true when the infinite-precision product does not fit) and the
value stored into `res`, which is the product wrapped to 32 bits in either
case. -/
def __builtin_mul_overflow (a b : Nat) : Bool × Nat :=
  (decide (UINT32_MAX < a * b), (a * b) % 2 ^ 32)

/-- Conversion of a `uint32_t` value to `int32_t` (two's complement). -/
def toInt32 (x : Nat) : Int :=
  if x % 2 ^ 32 < 2 ^ 31 then ((x % 2 ^ 32 : Nat) : Int) else ((x % 2 ^ 32 : Nat) : Int) - 2 ^ 32

/-- The data members of `class VideoFrame`, in declaration order. -/
structure VideoFrame where
  mWidth : Nat
  mHeight : Nat
  mDisplayWidth : Nat
  mDisplayHeight : Nat
  mDisplayLeft : Nat
  mDisplayTop : Nat
  mTileWidth : Nat
  mTileHeight : Nat
  mDurationUs : Int
  mRotationAngle : Int
  mBytesPerPixel : Nat
  mRowBytes : Nat
  mSize : Nat
  mIccSize : Nat
  mBitDepth : Nat
deriving DecidableEq, Repr

/-- The value of `sizeof(VideoFrame)`: eight `uint32_t`, one `int64_t` (at the
8-aligned offset 32), one `int32_t` and five more `uint32_t`. -/
def sizeofVideoFrame : Nat := 8 * 4 + 8 + 4 + 5 * 4

/-- What the constructor hands to the logging facilities. -/
inductive LogEvent where
  /-- The call `ALOGE("Frame rowBytes/ size overflow %dx%d bpp %d", width, height, bpp)`. -/
  | ALOGE (width height bpp : Nat)
  /-- The call `android_errorWriteLog(tag, subTag)`. -/
  | android_errorWriteLog (tag : Nat) (subTag : String)
deriving DecidableEq, Repr

/-- The constructor `VideoFrame::VideoFrame`. Returns the constructed object
together with the log records it emitted, in order. -/
def VideoFrame.VideoFrame (width height displayWidth displayHeight displayLeft displayTop
    tileWidth tileHeight angle bpp bitDepth : Nat) (hasData : Bool) (iccSize : Nat) :
    android.VideoFrame × List LogEvent :=
  let m1 := __builtin_mul_overflow bpp width
  let mRowBytes := if m1.1 then 0 else m1.2
  let m2 := __builtin_mul_overflow m1.2 height
  let mSize := if m2.1 then 0 else m2.2
  let self : android.VideoFrame :=
    { mWidth := width, mHeight := height,
      mDisplayWidth := displayWidth, mDisplayHeight := displayHeight,
      mDisplayLeft := displayLeft, mDisplayTop := displayTop,
      mTileWidth := tileWidth, mTileHeight := tileHeight, mDurationUs := 0,
      mRotationAngle := toInt32 angle, mBytesPerPixel := bpp,
      mRowBytes := mRowBytes, mSize := mSize,
      mIccSize := iccSize % 2 ^ 32, mBitDepth := bitDepth }
  if hasData && (mRowBytes == 0 || mSize == 0) then
    (self, [LogEvent.ALOGE width height bpp,
            LogEvent.android_errorWriteLog 0x534e4554 "233006499"])
  else
    (self, [])

/-- The method `getFlattenedSize`: `sizeof(VideoFrame) + mSize + mIccSize`,
computed in `size_t` (64 bits). -/
def VideoFrame.getFlattenedSize (self : android.VideoFrame) : Nat :=
  (sizeofVideoFrame + self.mSize + self.mIccSize) % 2 ^ 64

/-- The method `getFlattenedData`: `(uint8_t*)this + sizeof(VideoFrame)`, as an
offset from `this`. -/
def VideoFrame.getFlattenedData (_self : android.VideoFrame) : Nat :=
  0 + sizeofVideoFrame

/-- The method `getFlattenedIccData`:
`(uint8_t*)this + sizeof(VideoFrame) + mSize`, as an offset from `this`. -/
def VideoFrame.getFlattenedIccData (self : android.VideoFrame) : Nat :=
  0 + sizeofVideoFrame + self.mSize

/-- A `VideoFrame` resident at the start of a backing buffer: the structure
itself and the bytes that follow it (offsets `sizeof(VideoFrame)` onwards). -/
structure FlattenedVideoFrame where
  frame : VideoFrame
  trailing : List Byte
deriving DecidableEq

/-- Length in bytes of the whole backing buffer. -/
def FlattenedVideoFrame.bufferSize (self : FlattenedVideoFrame) : Nat :=
  sizeofVideoFrame + self.trailing.length

/-- The library call `memcpy(dst, src, n)` with `dst` an offset from `this` into the
bytes after the structure. Reading past the end of `src` or writing outside
the backing buffer has no defined result. -/
def memcpy (self : FlattenedVideoFrame) (dst : Nat) (src : List Byte) (n : Nat) :
    Option FlattenedVideoFrame :=
  if sizeofVideoFrame ≤ dst ∧ dst + n ≤ self.bufferSize ∧ n ≤ src.length then
    some { self with
      trailing := self.trailing.take (dst - sizeofVideoFrame) ++ src.take n ++
        self.trailing.drop (dst - sizeofVideoFrame + n) }
  else
    none

/-- Reads the `n` bytes at offset `p` from `this`, when they lie in the bytes after
the structure. -/
def FlattenedVideoFrame.readBytes (self : FlattenedVideoFrame) (p n : Nat) :
    Option (List Byte) :=
  if sizeofVideoFrame ≤ p ∧ p + n ≤ self.bufferSize then
    some ((self.trailing.drop (p - sizeofVideoFrame)).take n)
  else
    none

/-- The method `init`. `iccData` is `none` for a null pointer and otherwise the
bytes readable behind the pointer. -/
def VideoFrame.init (self : FlattenedVideoFrame) (copy : android.VideoFrame)
    (iccData : Option (List Byte)) (iccSize : Nat) : Option FlattenedVideoFrame :=
  let this : FlattenedVideoFrame := { self with frame := copy }
  if this.frame.mIccSize = iccSize ∧ iccSize > 0 ∧ iccData ≠ none then
    memcpy this this.frame.getFlattenedIccData (iccData.getD []) iccSize
  else
    some { this with frame := { this.frame with mIccSize := 0 } }

/-- Descriptors the class itself produces: the results of the constructor, and
the receiver's header after an `init` whose source is such a descriptor. -/
inductive Reachable : VideoFrame → Prop where
  | ctor (width height displayWidth displayHeight displayLeft displayTop tileWidth tileHeight
      angle bpp bitDepth : Nat) (hasData : Bool) (iccSize : Nat) :
      Reachable (VideoFrame.VideoFrame width height displayWidth displayHeight displayLeft
        displayTop tileWidth tileHeight angle bpp bitDepth hasData iccSize).1
  | init (self : FlattenedVideoFrame) (copy : VideoFrame) (iccData : Option (List Byte))
      (iccSize : Nat) (r : FlattenedVideoFrame) :
      Reachable copy → VideoFrame.init self copy iccData iccSize = some r → Reachable r.frame

/-! ## The constructor's derived sizes -/

theorem mul_overflow_flag (a b : Nat) :
    (__builtin_mul_overflow a b).1 = decide (UINT32_MAX < a * b) := rfl

theorem mul_overflow_val (a b : Nat) :
    (__builtin_mul_overflow a b).2 = (a * b) % 2 ^ 32 := rfl

theorem ctor_frame (width height displayWidth displayHeight displayLeft displayTop
    tileWidth tileHeight angle bpp bitDepth : Nat) (hasData : Bool) (iccSize : Nat) :
    (VideoFrame.VideoFrame width height displayWidth displayHeight displayLeft displayTop
      tileWidth tileHeight angle bpp bitDepth hasData iccSize).1 =
    { mWidth := width, mHeight := height,
      mDisplayWidth := displayWidth, mDisplayHeight := displayHeight,
      mDisplayLeft := displayLeft, mDisplayTop := displayTop,
      mTileWidth := tileWidth, mTileHeight := tileHeight, mDurationUs := 0,
      mRotationAngle := toInt32 angle, mBytesPerPixel := bpp,
      mRowBytes := if UINT32_MAX < bpp * width then 0 else (bpp * width) % 2 ^ 32,
      mSize := if UINT32_MAX < (bpp * width) % 2 ^ 32 * height then 0
        else ((bpp * width) % 2 ^ 32 * height) % 2 ^ 32,
      mIccSize := iccSize % 2 ^ 32, mBitDepth := bitDepth } := by
  unfold VideoFrame.VideoFrame
  simp only [mul_overflow_flag, mul_overflow_val, decide_eq_true_eq]
  split_ifs <;> rfl

theorem ctor_mRowBytes (width height displayWidth displayHeight displayLeft displayTop
    tileWidth tileHeight angle bpp bitDepth : Nat) (hasData : Bool) (iccSize : Nat) :
    (VideoFrame.VideoFrame width height displayWidth displayHeight displayLeft displayTop
      tileWidth tileHeight angle bpp bitDepth hasData iccSize).1.mRowBytes =
    if UINT32_MAX < bpp * width then 0 else (bpp * width) % 2 ^ 32 := by
  rw [ctor_frame]

theorem ctor_mSize (width height displayWidth displayHeight displayLeft displayTop
    tileWidth tileHeight angle bpp bitDepth : Nat) (hasData : Bool) (iccSize : Nat) :
    (VideoFrame.VideoFrame width height displayWidth displayHeight displayLeft displayTop
      tileWidth tileHeight angle bpp bitDepth hasData iccSize).1.mSize =
    if UINT32_MAX < (bpp * width) % 2 ^ 32 * height then 0
      else ((bpp * width) % 2 ^ 32 * height) % 2 ^ 32 := by
  rw [ctor_frame]

/-! ## Constructor: the derived sizes (C1, C2, C3) -/

/-- C1 (as stated, refuted): with `bytesPerPixel = 0xFFFFFFFF`, `width = 2`,
`height = 0` the exact product `bytesPerPixel*width*height` is 0, which fits in
32 bits, yet `rowBytes` is the sentinel 0 and not the exact product
`bytesPerPixel*width = 8589934590`. -/
theorem ctor_rowBytes_not_exact_for_zero_height :
    4294967295 * 2 * 0 ≤ UINT32_MAX ∧
    (VideoFrame.VideoFrame 2 0 2 0 0 0 0 0 0 4294967295 8 false 0).1.mRowBytes
      ≠ 4294967295 * 2 := by
  decide

/-- C1 (amended): when both exact products `bytesPerPixel*width` and
`bytesPerPixel*width*height` are at most 2^32-1, then for every value of the
other arguments `rowBytes` is the exact product `bytesPerPixel*width`, `size`
is `rowBytes*height`, and both are nonzero when `bytesPerPixel`, `width` and
`height` are all nonzero. -/
theorem ctor_sizes_exact_without_overflow (width height displayWidth displayHeight
    displayLeft displayTop tileWidth tileHeight angle bpp bitDepth : Nat) (hasData : Bool)
    (iccSize : Nat)
    (hrow : bpp * width ≤ UINT32_MAX) (hsize : bpp * width * height ≤ UINT32_MAX) :
    (VideoFrame.VideoFrame width height displayWidth displayHeight displayLeft displayTop
      tileWidth tileHeight angle bpp bitDepth hasData iccSize).1.mRowBytes = bpp * width ∧
    (VideoFrame.VideoFrame width height displayWidth displayHeight displayLeft displayTop
      tileWidth tileHeight angle bpp bitDepth hasData iccSize).1.mSize =
      (VideoFrame.VideoFrame width height displayWidth displayHeight displayLeft displayTop
        tileWidth tileHeight angle bpp bitDepth hasData iccSize).1.mRowBytes * height ∧
    (bpp ≠ 0 → width ≠ 0 → height ≠ 0 →
      (VideoFrame.VideoFrame width height displayWidth displayHeight displayLeft displayTop
        tileWidth tileHeight angle bpp bitDepth hasData iccSize).1.mRowBytes ≠ 0 ∧
      (VideoFrame.VideoFrame width height displayWidth displayHeight displayLeft displayTop
        tileWidth tileHeight angle bpp bitDepth hasData iccSize).1.mSize ≠ 0) := by
  have hmod : bpp * width % 2 ^ 32 = bpp * width := by
    apply Nat.mod_eq_of_lt
    unfold UINT32_MAX at hrow
    omega
  have hmod2 : bpp * width * height % 2 ^ 32 = bpp * width * height := by
    apply Nat.mod_eq_of_lt
    unfold UINT32_MAX at hsize
    omega
  rw [ctor_mRowBytes, ctor_mSize, hmod, if_neg (by omega), if_neg (by omega), hmod2]
  refine ⟨rfl, rfl, ?_⟩
  intro hb hw hh
  have h1 : bpp * width ≠ 0 := Nat.mul_ne_zero hb hw
  exact ⟨h1, Nat.mul_ne_zero h1 hh⟩

/-- C1 (amended), at the scenario of the specification: `width = 1920`,
`height = 1080`, `bytesPerPixel = 4` give `rowBytes = 7680` and
`size = 8294400`. -/
theorem ctor_sizes_exact_without_overflow_witness :
    (4 * 1920 ≤ UINT32_MAX ∧ 4 * 1920 * 1080 ≤ UINT32_MAX) ∧
    ((VideoFrame.VideoFrame 1920 1080 1920 1080 0 0 0 0 0 4 8 true 0).1.mRowBytes = 7680 ∧
     (VideoFrame.VideoFrame 1920 1080 1920 1080 0 0 0 0 0 4 8 true 0).1.mSize = 8294400 ∧
     (VideoFrame.VideoFrame 1920 1080 1920 1080 0 0 0 0 0 4 8 true 0).1.mRowBytes ≠ 0 ∧
     (VideoFrame.VideoFrame 1920 1080 1920 1080 0 0 0 0 0 4 8 true 0).1.mSize ≠ 0) := by
  have h := ctor_sizes_exact_without_overflow 1920 1080 1920 1080 0 0 0 0 0 4 8 true 0
    (by decide) (by decide)
  refine ⟨by decide, ?_, ?_, ?_⟩
  · exact h.1
  · rw [h.2.1, h.1]
  · exact h.2.2 (by decide) (by decide) (by decide)

/-- C2 (the code at the failing input): with `bytesPerPixel = 0xFFFFFFFF`,
`width = 2`, `height = 1` the first multiplication overflows, so `rowBytes` is
0, but `size` is 4294967294: neither 0 nor the exact product 8589934590. It is
the wrapped value of `bytesPerPixel*width` multiplied by `height`. -/
theorem ctor_size_wrapped_after_row_overflow :
    UINT32_MAX < 4294967295 * 2 ∧
    (VideoFrame.VideoFrame 2 1 2 1 0 0 0 0 0 4294967295 8 true 0).1.mRowBytes = 0 ∧
    (VideoFrame.VideoFrame 2 1 2 1 0 0 0 0 0 4294967295 8 true 0).1.mSize = 4294967294 ∧
    (VideoFrame.VideoFrame 2 1 2 1 0 0 0 0 0 4294967295 8 true 0).1.mSize ≠ 0 ∧
    (VideoFrame.VideoFrame 2 1 2 1 0 0 0 0 0 4294967295 8 true 0).1.mSize
      ≠ 4294967295 * 2 * 1 ∧
    (VideoFrame.VideoFrame 2 1 2 1 0 0 0 0 0 4294967295 8 true 0).1.mSize
      = (4294967295 * 2) % 2 ^ 32 * 1 := by
  decide

/-- C3 (as stated, refuted): with `bytesPerPixel = 1`, `width = 2`,
`height = 2^31` the exact product is 2^32, which exceeds 2^32-1, yet
`rowBytes` is 2, not 0 (the overflow shows in `size`, which is 0). -/
theorem ctor_rowBytes_nonzero_when_only_size_overflows :
    UINT32_MAX < 1 * 2 * 2147483648 ∧
    (VideoFrame.VideoFrame 2 2147483648 2 2147483648 0 0 0 0 0 1 8 true 0).1.mRowBytes ≠ 0 ∧
    (VideoFrame.VideoFrame 2 2147483648 2 2147483648 0 0 0 0 0 1 8 true 0).1.mRowBytes = 2 ∧
    (VideoFrame.VideoFrame 2 2147483648 2 2147483648 0 0 0 0 0 1 8 true 0).1.mSize = 0 := by
  decide

/-- C3 (amended): whenever the exact product `bytesPerPixel*width*height`
exceeds 2^32-1, the constructed descriptor has `rowBytes == 0` or `size == 0`:
`rowBytes == 0` if already `bytesPerPixel*width` exceeds 2^32-1, and
otherwise `rowBytes` is the exact `bytesPerPixel*width` and `size == 0`. -/
theorem ctor_overflow_shows_in_rowBytes_or_size (width height displayWidth displayHeight
    displayLeft displayTop tileWidth tileHeight angle bpp bitDepth : Nat) (hasData : Bool)
    (iccSize : Nat) (hover : UINT32_MAX < bpp * width * height) :
    (UINT32_MAX < bpp * width →
      (VideoFrame.VideoFrame width height displayWidth displayHeight displayLeft displayTop
        tileWidth tileHeight angle bpp bitDepth hasData iccSize).1.mRowBytes = 0) ∧
    (bpp * width ≤ UINT32_MAX →
      (VideoFrame.VideoFrame width height displayWidth displayHeight displayLeft displayTop
        tileWidth tileHeight angle bpp bitDepth hasData iccSize).1.mRowBytes = bpp * width ∧
      (VideoFrame.VideoFrame width height displayWidth displayHeight displayLeft displayTop
        tileWidth tileHeight angle bpp bitDepth hasData iccSize).1.mSize = 0) := by
  rw [ctor_mRowBytes, ctor_mSize]
  constructor
  · intro h
    rw [if_pos h]
  · intro h
    have hmod : bpp * width % 2 ^ 32 = bpp * width := by
      apply Nat.mod_eq_of_lt
      unfold UINT32_MAX at h
      omega
    rw [hmod, if_neg (by omega), if_pos hover]
    exact ⟨rfl, rfl⟩

/-- C3 (amended), at the input of the specification (`bytesPerPixel =
0xFFFFFFFF`, `width = 2`, here with `height = 1`): `rowBytes == 0`. -/
theorem ctor_overflow_shows_in_rowBytes_or_size_witness :
    UINT32_MAX < 4294967295 * 2 * 1 ∧
    (VideoFrame.VideoFrame 2 1 2 1 0 0 0 0 0 4294967295 8 true 0).1.mRowBytes = 0 :=
  ⟨by decide,
   (ctor_overflow_shows_in_rowBytes_or_size 2 1 2 1 0 0 0 0 0 4294967295 8 true 0
      (by decide)).1 (by decide)⟩

/-! ## Layout: flattened size and region offsets (C4, C5) -/

theorem getFlattenedSize_exact (f : VideoFrame) (hsize : f.mSize ≤ UINT32_MAX)
    (hicc : f.mIccSize ≤ UINT32_MAX) :
    f.getFlattenedSize = sizeofVideoFrame + f.mSize + f.mIccSize := by
  unfold VideoFrame.getFlattenedSize
  apply Nat.mod_eq_of_lt
  unfold UINT32_MAX at hsize hicc
  unfold sizeofVideoFrame
  omega

theorem ctor_mSize_le (width height displayWidth displayHeight displayLeft displayTop
    tileWidth tileHeight angle bpp bitDepth : Nat) (hasData : Bool) (iccSize : Nat) :
    (VideoFrame.VideoFrame width height displayWidth displayHeight displayLeft displayTop
      tileWidth tileHeight angle bpp bitDepth hasData iccSize).1.mSize ≤ UINT32_MAX := by
  rw [ctor_mSize]
  unfold UINT32_MAX
  split_ifs <;> omega

theorem ctor_mIccSize (width height displayWidth displayHeight displayLeft displayTop
    tileWidth tileHeight angle bpp bitDepth : Nat) (hasData : Bool) (iccSize : Nat) :
    (VideoFrame.VideoFrame width height displayWidth displayHeight displayLeft displayTop
      tileWidth tileHeight angle bpp bitDepth hasData iccSize).1.mIccSize = iccSize % 2 ^ 32 := by
  rw [ctor_frame]

/-- C4: for every descriptor the constructor produces (overflow cases included)
`getFlattenedSize()`, computed in 64-bit `size_t`, is the exact sum
`sizeof(VideoFrame) + size + iccSize` of the field values; on any descriptor
its value is unchanged when every field other than `size` and `iccSize` is
replaced; and for `width = 1920`, `height = 1080`, `bytesPerPixel = 4`,
`iccSize = 0` it is `sizeof(VideoFrame) + 8294400`. -/
theorem ctor_getFlattenedSize_exact :
    (∀ (width height displayWidth displayHeight displayLeft displayTop tileWidth tileHeight
        angle bpp bitDepth : Nat) (hasData : Bool) (iccSize : Nat),
      (VideoFrame.VideoFrame width height displayWidth displayHeight displayLeft displayTop
        tileWidth tileHeight angle bpp bitDepth hasData iccSize).1.getFlattenedSize =
      sizeofVideoFrame +
        (VideoFrame.VideoFrame width height displayWidth displayHeight displayLeft displayTop
          tileWidth tileHeight angle bpp bitDepth hasData iccSize).1.mSize +
        (VideoFrame.VideoFrame width height displayWidth displayHeight displayLeft displayTop
          tileWidth tileHeight angle bpp bitDepth hasData iccSize).1.mIccSize) ∧
    (∀ (f : VideoFrame) (w h dw dh dl dt tw th : Nat) (dur rot : Int) (bpp rb bd : Nat),
      VideoFrame.getFlattenedSize
        { mWidth := w, mHeight := h, mDisplayWidth := dw, mDisplayHeight := dh,
          mDisplayLeft := dl, mDisplayTop := dt, mTileWidth := tw, mTileHeight := th,
          mDurationUs := dur, mRotationAngle := rot, mBytesPerPixel := bpp, mRowBytes := rb,
          mSize := f.mSize, mIccSize := f.mIccSize, mBitDepth := bd } =
      f.getFlattenedSize) ∧
    (VideoFrame.VideoFrame 1920 1080 1920 1080 0 0 0 0 0 4 8 true 0).1.getFlattenedSize =
      sizeofVideoFrame + 8294400 := by
  refine ⟨?_, ?_, by decide⟩
  · intro width height displayWidth displayHeight displayLeft displayTop tileWidth tileHeight
      angle bpp bitDepth hasData iccSize
    apply getFlattenedSize_exact
    · exact ctor_mSize_le _ _ _ _ _ _ _ _ _ _ _ _ _
    · rw [ctor_mIccSize]
      unfold UINT32_MAX
      omega
  · intro f w h dw dh dl dt tw th dur rot bpp rb bd
    rfl

/-- C5: for every descriptor whose `size` and `iccSize` hold `uint32_t` values,
`getFlattenedData` is the offset `sizeof(VideoFrame)` and `getFlattenedIccData`
the offset `sizeof(VideoFrame) + size`; the header `[0, headerSize)`, the pixel
region of `size` bytes starting at `getFlattenedData` and the profile region
of `iccSize` bytes starting at `getFlattenedIccData` are adjacent (each ends
where the next starts, the last at `getFlattenedSize()`), pairwise disjoint,
and their union is exactly `[0, getFlattenedSize())`. -/
theorem flattened_layout (f : VideoFrame) (hsize : f.mSize ≤ UINT32_MAX)
    (hicc : f.mIccSize ≤ UINT32_MAX) :
    f.getFlattenedData = sizeofVideoFrame ∧
    f.getFlattenedIccData = sizeofVideoFrame + f.mSize ∧
    f.getFlattenedData + f.mSize = f.getFlattenedIccData ∧
    f.getFlattenedIccData + f.mIccSize = f.getFlattenedSize ∧
    Disjoint (Finset.Ico 0 sizeofVideoFrame)
      (Finset.Ico f.getFlattenedData (f.getFlattenedData + f.mSize)) ∧
    Disjoint (Finset.Ico 0 sizeofVideoFrame)
      (Finset.Ico f.getFlattenedIccData (f.getFlattenedIccData + f.mIccSize)) ∧
    Disjoint (Finset.Ico f.getFlattenedData (f.getFlattenedData + f.mSize))
      (Finset.Ico f.getFlattenedIccData (f.getFlattenedIccData + f.mIccSize)) ∧
    Finset.Ico 0 sizeofVideoFrame ∪
      Finset.Ico f.getFlattenedData (f.getFlattenedData + f.mSize) ∪
      Finset.Ico f.getFlattenedIccData (f.getFlattenedIccData + f.mIccSize) =
      Finset.Ico 0 f.getFlattenedSize := by
  rw [getFlattenedSize_exact f hsize hicc]
  unfold VideoFrame.getFlattenedData VideoFrame.getFlattenedIccData
  simp only [Nat.zero_add]
  refine ⟨trivial, trivial, trivial, trivial, ?_, ?_, ?_, ?_⟩
  · rw [Finset.disjoint_left]
    intro x h1 h2
    rw [Finset.mem_Ico] at h1 h2
    omega
  · rw [Finset.disjoint_left]
    intro x h1 h2
    rw [Finset.mem_Ico] at h1 h2
    omega
  · rw [Finset.disjoint_left]
    intro x h1 h2
    rw [Finset.mem_Ico] at h1 h2
    omega
  · ext x
    simp only [Finset.mem_union, Finset.mem_Ico]
    omega

/-- C5 at a concrete descriptor (`width = 100`, `height = 50`,
`bytesPerPixel = 4`, `iccSize = 10`): pixel data at offset 64, profile data at
offset 20064, flattened size 20074. -/
theorem flattened_layout_witness :
    ((VideoFrame.VideoFrame 100 50 100 50 0 0 0 0 0 4 8 true 10).1.mSize ≤ UINT32_MAX ∧
     (VideoFrame.VideoFrame 100 50 100 50 0 0 0 0 0 4 8 true 10).1.mIccSize ≤ UINT32_MAX) ∧
    (VideoFrame.VideoFrame 100 50 100 50 0 0 0 0 0 4 8 true 10).1.getFlattenedData = 64 ∧
    (VideoFrame.VideoFrame 100 50 100 50 0 0 0 0 0 4 8 true 10).1.getFlattenedIccData
      = 64 + 20000 ∧
    Finset.Ico 0 sizeofVideoFrame ∪
      Finset.Ico (VideoFrame.VideoFrame 100 50 100 50 0 0 0 0 0 4 8 true 10).1.getFlattenedData
        ((VideoFrame.VideoFrame 100 50 100 50 0 0 0 0 0 4 8 true 10).1.getFlattenedData +
          (VideoFrame.VideoFrame 100 50 100 50 0 0 0 0 0 4 8 true 10).1.mSize) ∪
      Finset.Ico (VideoFrame.VideoFrame 100 50 100 50 0 0 0 0 0 4 8 true 10).1.getFlattenedIccData
        ((VideoFrame.VideoFrame 100 50 100 50 0 0 0 0 0 4 8 true 10).1.getFlattenedIccData +
          (VideoFrame.VideoFrame 100 50 100 50 0 0 0 0 0 4 8 true 10).1.mIccSize) =
      Finset.Ico 0 (VideoFrame.VideoFrame 100 50 100 50 0 0 0 0 0 4 8 true 10).1.getFlattenedSize := by
  have h := flattened_layout (VideoFrame.VideoFrame 100 50 100 50 0 0 0 0 0 4 8 true 10).1
    (by decide) (by decide)
  exact ⟨by decide, h.1, by decide, h.2.2.2.2.2.2.2⟩

/-! ## `init`: attaching or dropping the profile, copying the header (C6, C7, C8) -/

theorem take_drop_spliced (l src rest : List Byte) (a n : Nat) (ha : a ≤ l.length)
    (hn : src.length = n) :
    ((l.take a ++ src ++ rest).drop a).take n = src := by
  have htake : (l.take a).length = a := by
    rw [List.length_take]
    omega
  rw [List.append_assoc, List.drop_left' htake, List.take_left' hn]

theorem init_attach_eq (self : FlattenedVideoFrame) (copy : VideoFrame)
    (iccData : Option (List Byte)) (iccSize : Nat)
    (hcond : copy.mIccSize = iccSize ∧ iccSize > 0 ∧ iccData ≠ none)
    (hbuf : sizeofVideoFrame + copy.mSize + iccSize ≤ self.bufferSize)
    (hsrc : iccSize ≤ (iccData.getD []).length) :
    VideoFrame.init self copy iccData iccSize =
      some { frame := copy,
             trailing := self.trailing.take copy.mSize ++ (iccData.getD []).take iccSize ++
               self.trailing.drop (copy.mSize + iccSize) } := by
  unfold VideoFrame.init
  simp only []
  rw [if_pos hcond]
  unfold memcpy VideoFrame.getFlattenedIccData
  have hb : sizeofVideoFrame + self.trailing.length = self.bufferSize := rfl
  have hb2 : FlattenedVideoFrame.bufferSize { frame := copy, trailing := self.trailing } =
      self.bufferSize := rfl
  rw [if_pos ⟨by omega, by rw [hb2]; omega, hsrc⟩]
  have hsub : 0 + sizeofVideoFrame + copy.mSize - sizeofVideoFrame = copy.mSize := by omega
  rw [hsub]

theorem init_drop_eq (self : FlattenedVideoFrame) (copy : VideoFrame)
    (iccData : Option (List Byte)) (iccSize : Nat)
    (hcond : ¬ (copy.mIccSize = iccSize ∧ iccSize > 0 ∧ iccData ≠ none)) :
    VideoFrame.init self copy iccData iccSize =
      some { frame := { copy with mIccSize := 0 }, trailing := self.trailing } := by
  unfold VideoFrame.init
  simp only []
  rw [if_neg hcond]

/-- C6: for every receiver, every source descriptor and every `profileSize > 0`
with `profileSize == source.iccSize` and a non-null `profileData` of
`profileSize` bytes, when the receiver's backing buffer holds the
`headerSize + source.size + profileSize` bytes the call writes to,
`init(source, profileData, profileSize)` returns, the receiver's `iccSize`
equals `profileSize`, and the `profileSize` bytes of its backing buffer
starting at offset `headerSize + source.size` are `profileData`, byte for
byte. -/
theorem init_attaches_profile (self : FlattenedVideoFrame) (copy : VideoFrame)
    (profileData : List Byte) (profileSize : Nat)
    (hpos : 0 < profileSize) (heq : profileSize = copy.mIccSize)
    (hlen : profileData.length = profileSize)
    (hbuf : sizeofVideoFrame + copy.mSize + profileSize ≤ self.bufferSize) :
    ∃ r, VideoFrame.init self copy (some profileData) profileSize = some r ∧
      r.frame.mIccSize = profileSize ∧
      r.bufferSize = self.bufferSize ∧
      r.readBytes (sizeofVideoFrame + copy.mSize) profileSize = some profileData := by
  have hinit := init_attach_eq self copy (some profileData) profileSize
    ⟨heq.symm, hpos, by simp⟩ hbuf (by simp [hlen])
  have hb : sizeofVideoFrame + self.trailing.length = self.bufferSize := rfl
  have hlt : copy.mSize + profileSize ≤ self.trailing.length := by omega
  refine ⟨_, hinit, heq.symm, ?_, ?_⟩
  · unfold FlattenedVideoFrame.bufferSize
    simp only [Option.getD_some, List.length_append, List.length_take, List.length_drop]
    omega
  · unfold FlattenedVideoFrame.readBytes FlattenedVideoFrame.bufferSize
    simp only [Option.getD_some, List.length_append, List.length_take, List.length_drop]
    rw [if_pos ⟨by omega, by omega⟩]
    have hsub : sizeofVideoFrame + copy.mSize - sizeofVideoFrame = copy.mSize := by omega
    have hp : List.take profileSize profileData = profileData :=
      List.take_of_length_le (by omega)
    rw [hsub, hp]
    exact congrArg some (take_drop_spliced _ _ _ _ _ (by omega) hlen)

/-- C6 at the scenario of the specification: a source with `iccSize = 10` (and
`size = 4`), `profileSize = 10`, ten profile bytes, and a receiver whose
backing buffer has 14 bytes after the header. -/
theorem init_attaches_profile_witness :
    (0 < 10 ∧ 10 = (VideoFrame.VideoFrame 1 1 1 1 0 0 0 0 0 4 8 true 10).1.mIccSize ∧
      [1, 2, 3, 4, 5, 6, 7, 8, 9, 10].length = 10 ∧
      sizeofVideoFrame + (VideoFrame.VideoFrame 1 1 1 1 0 0 0 0 0 4 8 true 10).1.mSize + 10 ≤
        FlattenedVideoFrame.bufferSize ⟨(VideoFrame.VideoFrame 2 2 2 2 0 0 0 0 0 1 8 true 3).1, List.replicate 14 0⟩) ∧
    ∃ r, VideoFrame.init ⟨(VideoFrame.VideoFrame 2 2 2 2 0 0 0 0 0 1 8 true 3).1, List.replicate 14 0⟩ (VideoFrame.VideoFrame 1 1 1 1 0 0 0 0 0 4 8 true 10).1 (some [1, 2, 3, 4, 5, 6, 7, 8, 9, 10]) 10 = some r ∧
      r.frame.mIccSize = 10 ∧
      r.bufferSize = FlattenedVideoFrame.bufferSize ⟨(VideoFrame.VideoFrame 2 2 2 2 0 0 0 0 0 1 8 true 3).1, List.replicate 14 0⟩ ∧
      r.readBytes (sizeofVideoFrame + (VideoFrame.VideoFrame 1 1 1 1 0 0 0 0 0 4 8 true 10).1.mSize) 10 = some [1, 2, 3, 4, 5, 6, 7, 8, 9, 10] :=
  ⟨by decide,
   init_attaches_profile ⟨(VideoFrame.VideoFrame 2 2 2 2 0 0 0 0 0 1 8 true 3).1, List.replicate 14 0⟩ (VideoFrame.VideoFrame 1 1 1 1 0 0 0 0 0 4 8 true 10).1 [1, 2, 3, 4, 5, 6, 7, 8, 9, 10] 10
     (by decide) (by decide) (by decide) (by decide)⟩

/-- C7: for every receiver and source descriptor, if `profileSize !=
source.iccSize`, or `profileSize == 0`, or `profileData` is null, then
`init(source, profileData, profileSize)` returns normally (no bound on the
buffer is needed), the receiver's `iccSize` is 0 whatever `source.iccSize` and
the receiver's previous `iccSize` were, and the bytes after the receiver's
header are exactly what they were before the call. -/
theorem init_drops_profile (self : FlattenedVideoFrame) (copy : VideoFrame)
    (profileData : Option (List Byte)) (profileSize : Nat)
    (h : profileSize ≠ copy.mIccSize ∨ profileSize = 0 ∨ profileData = none) :
    ∃ r, VideoFrame.init self copy profileData profileSize = some r ∧
      r.frame.mIccSize = 0 ∧ r.trailing = self.trailing := by
  refine ⟨_, init_drop_eq self copy profileData profileSize ?_, rfl, rfl⟩
  rintro ⟨h1, h2, h3⟩
  rcases h with h | h | h
  · exact h h1.symm
  · omega
  · exact h3 h

/-- C7 at the scenarios of the specification: a source with `iccSize = 10` and
`profileSize = 5` (mismatch), and the same source with a null pointer; the
receiver had `iccSize = 3` before. -/
theorem init_drops_profile_witness :
    ((5 ≠ (VideoFrame.VideoFrame 1 1 1 1 0 0 0 0 0 4 8 true 10).1.mIccSize ∨ 5 = 0 ∨ some [1, 2, 3, 4, 5] = (none : Option (List Byte))) ∧
      ∃ r, VideoFrame.init ⟨(VideoFrame.VideoFrame 2 2 2 2 0 0 0 0 0 1 8 true 3).1, List.replicate 14 0⟩ (VideoFrame.VideoFrame 1 1 1 1 0 0 0 0 0 4 8 true 10).1 (some [1, 2, 3, 4, 5]) 5 = some r ∧
        r.frame.mIccSize = 0 ∧ r.trailing = List.replicate 14 0) ∧
    ((10 ≠ (VideoFrame.VideoFrame 1 1 1 1 0 0 0 0 0 4 8 true 10).1.mIccSize ∨ 10 = 0 ∨ (none : Option (List Byte)) = none) ∧
      ∃ r, VideoFrame.init ⟨(VideoFrame.VideoFrame 2 2 2 2 0 0 0 0 0 1 8 true 3).1, List.replicate 14 0⟩ (VideoFrame.VideoFrame 1 1 1 1 0 0 0 0 0 4 8 true 10).1 none 10 = some r ∧
        r.frame.mIccSize = 0 ∧ r.trailing = List.replicate 14 0) :=
  ⟨⟨by decide, init_drops_profile ⟨(VideoFrame.VideoFrame 2 2 2 2 0 0 0 0 0 1 8 true 3).1, List.replicate 14 0⟩ (VideoFrame.VideoFrame 1 1 1 1 0 0 0 0 0 4 8 true 10).1 (some [1, 2, 3, 4, 5]) 5 (by decide)⟩,
   ⟨by decide, init_drops_profile ⟨(VideoFrame.VideoFrame 2 2 2 2 0 0 0 0 0 1 8 true 3).1, List.replicate 14 0⟩ (VideoFrame.VideoFrame 1 1 1 1 0 0 0 0 0 4 8 true 10).1 none 10 (by decide)⟩⟩

/-- C8: for every receiver, source, `profileData` and `profileSize` for which the
call is defined (when the profile is attached, the receiver's backing buffer
holds `headerSize + source.size + profileSize` bytes and `profileData` has
`profileSize` readable bytes), `init` returns and every header field of the
receiver other than `iccSize` equals the corresponding field of the source,
whatever the receiver held before and whichever branch is taken. The source is
passed by value and is not part of the result, so it is unchanged. -/
theorem init_copies_header (self : FlattenedVideoFrame) (copy : VideoFrame)
    (profileData : Option (List Byte)) (profileSize : Nat)
    (hbuf : copy.mIccSize = profileSize → 0 < profileSize → profileData ≠ none →
      sizeofVideoFrame + copy.mSize + profileSize ≤ self.bufferSize)
    (hsrc : ∀ bytes, profileData = some bytes → copy.mIccSize = profileSize →
      profileSize ≤ bytes.length) :
    ∃ r, VideoFrame.init self copy profileData profileSize = some r ∧
      r.frame.mWidth = copy.mWidth ∧ r.frame.mHeight = copy.mHeight ∧
      r.frame.mDisplayWidth = copy.mDisplayWidth ∧
      r.frame.mDisplayHeight = copy.mDisplayHeight ∧
      r.frame.mDisplayLeft = copy.mDisplayLeft ∧ r.frame.mDisplayTop = copy.mDisplayTop ∧
      r.frame.mTileWidth = copy.mTileWidth ∧ r.frame.mTileHeight = copy.mTileHeight ∧
      r.frame.mDurationUs = copy.mDurationUs ∧
      r.frame.mRotationAngle = copy.mRotationAngle ∧
      r.frame.mBytesPerPixel = copy.mBytesPerPixel ∧
      r.frame.mRowBytes = copy.mRowBytes ∧ r.frame.mSize = copy.mSize ∧
      r.frame.mBitDepth = copy.mBitDepth := by
  by_cases hcond : copy.mIccSize = profileSize ∧ profileSize > 0 ∧ profileData ≠ none
  · obtain ⟨h1, h2, h3⟩ := hcond
    obtain ⟨bytes, hbytes⟩ := Option.ne_none_iff_exists'.mp h3
    refine ⟨_, init_attach_eq self copy profileData profileSize ⟨h1, h2, h3⟩
      (hbuf h1 h2 h3) ?_, rfl, rfl, rfl, rfl, rfl, rfl, rfl, rfl, rfl, rfl, rfl, rfl, rfl, rfl⟩
    rw [hbytes]
    exact hsrc bytes hbytes h1
  · exact ⟨_, init_drop_eq self copy profileData profileSize hcond,
      rfl, rfl, rfl, rfl, rfl, rfl, rfl, rfl, rfl, rfl, rfl, rfl, rfl, rfl⟩

/-- C8 at a concrete call taking the attaching branch: the receiver was built for
a 2x2 frame of 1 byte per pixel, the source for a 1x1 frame of 4 bytes per
pixel with `iccSize = 10`. -/
theorem init_copies_header_witness :
    (((VideoFrame.VideoFrame 1 1 1 1 0 0 0 0 0 4 8 true 10).1.mIccSize = 10 → 0 < 10 →
        some [1, 2, 3, 4, 5, 6, 7, 8, 9, 10] ≠ (none : Option (List Byte)) →
        sizeofVideoFrame + (VideoFrame.VideoFrame 1 1 1 1 0 0 0 0 0 4 8 true 10).1.mSize + 10 ≤ FlattenedVideoFrame.bufferSize ⟨(VideoFrame.VideoFrame 2 2 2 2 0 0 0 0 0 1 8 true 3).1, List.replicate 14 0⟩) ∧
      (∀ bytes : List Byte, some [1, 2, 3, 4, 5, 6, 7, 8, 9, 10] = some bytes →
        (VideoFrame.VideoFrame 1 1 1 1 0 0 0 0 0 4 8 true 10).1.mIccSize = 10 → 10 ≤ bytes.length)) ∧
    ∃ r, VideoFrame.init ⟨(VideoFrame.VideoFrame 2 2 2 2 0 0 0 0 0 1 8 true 3).1, List.replicate 14 0⟩ (VideoFrame.VideoFrame 1 1 1 1 0 0 0 0 0 4 8 true 10).1 (some [1, 2, 3, 4, 5, 6, 7, 8, 9, 10]) 10 = some r ∧
      r.frame.mWidth = 1 ∧ r.frame.mHeight = 1 ∧ r.frame.mBytesPerPixel = 4 ∧
      r.frame.mRowBytes = 4 ∧ r.frame.mSize = 4 := by
  have hbuf : (VideoFrame.VideoFrame 1 1 1 1 0 0 0 0 0 4 8 true 10).1.mIccSize = 10 → 0 < 10 →
      some [1, 2, 3, 4, 5, 6, 7, 8, 9, 10] ≠ (none : Option (List Byte)) →
      sizeofVideoFrame + (VideoFrame.VideoFrame 1 1 1 1 0 0 0 0 0 4 8 true 10).1.mSize + 10 ≤ FlattenedVideoFrame.bufferSize ⟨(VideoFrame.VideoFrame 2 2 2 2 0 0 0 0 0 1 8 true 3).1, List.replicate 14 0⟩ := by
    decide
  have hsrc : ∀ bytes : List Byte, some [1, 2, 3, 4, 5, 6, 7, 8, 9, 10] = some bytes →
      (VideoFrame.VideoFrame 1 1 1 1 0 0 0 0 0 4 8 true 10).1.mIccSize = 10 → 10 ≤ bytes.length := by
    intro bytes hb _
    rw [← Option.some.inj hb]
    decide
  obtain ⟨r, hr, hw, hh, _, _, _, _, _, _, _, _, hbpp, hrow, hsize, _⟩ :=
    init_copies_header ⟨(VideoFrame.VideoFrame 2 2 2 2 0 0 0 0 0 1 8 true 3).1, List.replicate 14 0⟩ (VideoFrame.VideoFrame 1 1 1 1 0 0 0 0 0 4 8 true 10).1 (some [1, 2, 3, 4, 5, 6, 7, 8, 9, 10]) 10 hbuf hsrc
  exact ⟨⟨hbuf, hsrc⟩, r, hr, hw, hh, hbpp, hrow, hsize⟩

/-! ## Constructor: the overflow diagnostic (C9, C10) -/

theorem ctor_log (width height displayWidth displayHeight displayLeft displayTop
    tileWidth tileHeight angle bpp bitDepth : Nat) (hasData : Bool) (iccSize : Nat) :
    (VideoFrame.VideoFrame width height displayWidth displayHeight displayLeft displayTop
      tileWidth tileHeight angle bpp bitDepth hasData iccSize).2 =
    if hasData = true ∧
        ((VideoFrame.VideoFrame width height displayWidth displayHeight displayLeft displayTop
            tileWidth tileHeight angle bpp bitDepth hasData iccSize).1.mRowBytes = 0 ∨
         (VideoFrame.VideoFrame width height displayWidth displayHeight displayLeft displayTop
            tileWidth tileHeight angle bpp bitDepth hasData iccSize).1.mSize = 0) then
      [LogEvent.ALOGE width height bpp, LogEvent.android_errorWriteLog 0x534e4554 "233006499"]
    else [] := by
  rw [ctor_mRowBytes, ctor_mSize]
  unfold VideoFrame.VideoFrame
  simp only [mul_overflow_flag, mul_overflow_val, decide_eq_true_eq, Bool.and_eq_true,
    Bool.or_eq_true, beq_iff_eq]
  split_ifs <;> rfl

/-- C9: for every input in which `bytesPerPixel*width` overflows the unsigned
32-bit range, or the subsequent multiplication by `height` does (the one the
code performs on the 32-bit value left by the first, or the exact product
`bytesPerPixel*width*height`), the constructor, which is a total function and
so always returns a descriptor, emits with `hasData` true exactly one `ALOGE`
record followed by exactly one `android_errorWriteLog(0x534e4554,
"233006499")` record, and with `hasData` false emits nothing. -/
theorem ctor_reports_overflow (width height displayWidth displayHeight displayLeft displayTop
    tileWidth tileHeight angle bpp bitDepth : Nat) (iccSize : Nat)
    (hover : UINT32_MAX < bpp * width ∨ UINT32_MAX < (bpp * width) % 2 ^ 32 * height ∨
      UINT32_MAX < bpp * width * height) :
    (VideoFrame.VideoFrame width height displayWidth displayHeight displayLeft displayTop
      tileWidth tileHeight angle bpp bitDepth true iccSize).2 =
      [LogEvent.ALOGE width height bpp,
       LogEvent.android_errorWriteLog 0x534e4554 "233006499"] ∧
    (VideoFrame.VideoFrame width height displayWidth displayHeight displayLeft displayTop
      tileWidth tileHeight angle bpp bitDepth false iccSize).2 = [] := by
  constructor
  · rw [ctor_log, ctor_mRowBytes, ctor_mSize, if_pos]
    refine ⟨rfl, ?_⟩
    by_cases h1 : UINT32_MAX < bpp * width
    · left
      rw [if_pos h1]
    · right
      have hmod : bpp * width % 2 ^ 32 = bpp * width := by
        apply Nat.mod_eq_of_lt
        unfold UINT32_MAX at h1
        omega
      rw [hmod] at hover ⊢
      rw [if_pos (by omega)]
  · rw [ctor_log, if_neg]
    rintro ⟨h, _⟩
    exact Bool.false_ne_true h

/-- C9 at the input of the specification (`bytesPerPixel = 0xFFFFFFFF`,
`width = 2`, with `height = 1`). -/
theorem ctor_reports_overflow_witness :
    (UINT32_MAX < 4294967295 * 2 ∨ UINT32_MAX < (4294967295 * 2) % 2 ^ 32 * 1 ∨
      UINT32_MAX < 4294967295 * 2 * 1) ∧
    (VideoFrame.VideoFrame 2 1 2 1 0 0 0 0 0 4294967295 8 true 0).2 =
      [LogEvent.ALOGE 2 1 4294967295,
       LogEvent.android_errorWriteLog 0x534e4554 "233006499"] ∧
    (VideoFrame.VideoFrame 2 1 2 1 0 0 0 0 0 4294967295 8 false 0).2 = [] :=
  ⟨by decide, ctor_reports_overflow 2 1 2 1 0 0 0 0 0 4294967295 8 0 (by decide)⟩

/-- C10 (as stated, refuted): with `hasData` true, `bytesPerPixel = 4` and
`width = height = 0` neither multiplication overflows (both products are 0),
yet `rowBytes` and `size` are 0 and the diagnostic is emitted. -/
theorem ctor_diagnostic_for_empty_frame :
    ¬ UINT32_MAX < 4 * 0 ∧
    ¬ UINT32_MAX < (VideoFrame.VideoFrame 0 0 0 0 0 0 0 0 0 4 8 true 0).1.mRowBytes * 0 ∧
    (VideoFrame.VideoFrame 0 0 0 0 0 0 0 0 0 4 8 true 0).1.mRowBytes = 0 ∧
    (VideoFrame.VideoFrame 0 0 0 0 0 0 0 0 0 4 8 true 0).1.mSize = 0 ∧
    (VideoFrame.VideoFrame 0 0 0 0 0 0 0 0 0 4 8 true 0).2 =
      [LogEvent.ALOGE 0 0 4, LogEvent.android_errorWriteLog 0x534e4554 "233006499"] := by
  decide

/-- C10 (amended): for every input with `bytesPerPixel`, `width` and `height` all
nonzero, a computed `rowBytes` or `size` of 0 means that `bytesPerPixel*width`
or `rowBytes*height` overflowed the unsigned 32-bit range; equivalently, for
such an input in which neither multiplication overflows, no diagnostic is
emitted, whatever `hasData` is. -/
theorem ctor_diagnostic_means_overflow (width height displayWidth displayHeight displayLeft
    displayTop tileWidth tileHeight angle bpp bitDepth : Nat) (hasData : Bool) (iccSize : Nat)
    (hbpp : bpp ≠ 0) (hwidth : width ≠ 0) (hheight : height ≠ 0) :
    (((VideoFrame.VideoFrame width height displayWidth displayHeight displayLeft displayTop
        tileWidth tileHeight angle bpp bitDepth hasData iccSize).1.mRowBytes = 0 ∨
      (VideoFrame.VideoFrame width height displayWidth displayHeight displayLeft displayTop
        tileWidth tileHeight angle bpp bitDepth hasData iccSize).1.mSize = 0) →
      UINT32_MAX < bpp * width ∨
      UINT32_MAX < (VideoFrame.VideoFrame width height displayWidth displayHeight displayLeft displayTop
        tileWidth tileHeight angle bpp bitDepth hasData iccSize).1.mRowBytes * height) ∧
    (bpp * width ≤ UINT32_MAX →
      (VideoFrame.VideoFrame width height displayWidth displayHeight displayLeft displayTop
        tileWidth tileHeight angle bpp bitDepth hasData iccSize).1.mRowBytes * height ≤ UINT32_MAX →
      (VideoFrame.VideoFrame width height displayWidth displayHeight displayLeft displayTop
        tileWidth tileHeight angle bpp bitDepth hasData iccSize).2 = []) := by
  have hbw : bpp * width ≠ 0 := Nat.mul_ne_zero hbpp hwidth
  by_cases h1 : UINT32_MAX < bpp * width
  · exact ⟨fun _ => Or.inl h1, fun h => absurd h1 (by omega)⟩
  · have hmod : bpp * width % 2 ^ 32 = bpp * width := by
      apply Nat.mod_eq_of_lt
      unfold UINT32_MAX at h1
      omega
    have hbwh : bpp * width * height ≠ 0 := Nat.mul_ne_zero hbw hheight
    rw [ctor_log, ctor_mRowBytes, ctor_mSize, hmod, if_neg h1]
    by_cases h2 : UINT32_MAX < bpp * width * height
    · exact ⟨fun _ => Or.inr h2, fun _ h => absurd h2 (by omega)⟩
    · have hmod2 : bpp * width * height % 2 ^ 32 = bpp * width * height := by
        apply Nat.mod_eq_of_lt
        unfold UINT32_MAX at h2
        omega
      rw [if_neg h2, hmod2]
      constructor
      · rintro (h | h)
        · exact absurd h hbw
        · exact absurd h hbwh
      · intro _ _
        rw [if_neg]
        rintro ⟨_, h | h⟩
        · exact hbw h
        · exact hbwh h

/-- C10 (amended) at `width = 1920`, `height = 1080`, `bytesPerPixel = 4`,
`hasData` true: no multiplication overflows and the log is empty. -/
theorem ctor_diagnostic_means_overflow_witness :
    ((4 : Nat) ≠ 0 ∧ (1920 : Nat) ≠ 0 ∧ (1080 : Nat) ≠ 0 ∧ 4 * 1920 ≤ UINT32_MAX ∧
      (VideoFrame.VideoFrame 1920 1080 1920 1080 0 0 0 0 0 4 8 true 0).1.mRowBytes * 1080
        ≤ UINT32_MAX) ∧
    (VideoFrame.VideoFrame 1920 1080 1920 1080 0 0 0 0 0 4 8 true 0).2 = [] :=
  ⟨by decide,
   (ctor_diagnostic_means_overflow 1920 1080 1920 1080 0 0 0 0 0 4 8 true 0
      (by decide) (by decide) (by decide)).2 (by decide) (by decide)⟩

/-! ## Constructor: stored arguments (C11) -/

theorem toInt32_of_lt (x : Nat) (h : x < 2 ^ 31) : toInt32 x = (x : Int) := by
  unfold toInt32
  have hmod : x % 2 ^ 32 = x := Nat.mod_eq_of_lt (by omega)
  rw [hmod, if_pos h]

/-- C11 (as stated, refuted): with `iccSize = 2^32` (a `size_t` value) the field
`iccSize`, a `uint32_t`, holds 0, and with `angle = 0xFFFFFFFF` the field
`rotationAngle`, an `int32_t`, holds -1: neither has the numeric value of its
argument. -/
theorem ctor_narrows_iccSize_and_angle :
    (VideoFrame.VideoFrame 1 1 1 1 0 0 0 0 0 4 8 true 4294967296).1.mIccSize = 0 ∧
    (VideoFrame.VideoFrame 1 1 1 1 0 0 0 0 0 4 8 true 4294967296).1.mIccSize ≠ 4294967296 ∧
    (VideoFrame.VideoFrame 1 1 1 1 0 0 0 0 4294967295 4 8 true 0).1.mRotationAngle = -1 ∧
    (VideoFrame.VideoFrame 1 1 1 1 0 0 0 0 4294967295 4 8 true 0).1.mRotationAngle
      ≠ ((4294967295 : Nat) : Int) := by
  decide

/-- C11 (amended): for every argument tuple with `angle` at most 2^31-1 and
`iccSize` at most 2^32-1, the constructed descriptor's fields `width`,
`height`, `displayWidth`, `displayHeight`, `displayLeft`, `displayTop`,
`tileWidth`, `tileHeight`, `rotationAngle`, `bytesPerPixel`, `bitDepth` and
`iccSize` have the same numeric value as the corresponding argument, and
`durationUs` is 0. -/
theorem ctor_stores_arguments (width height displayWidth displayHeight displayLeft displayTop
    tileWidth tileHeight angle bpp bitDepth : Nat) (hasData : Bool) (iccSize : Nat)
    (hangle : angle < 2 ^ 31) (hicc : iccSize ≤ UINT32_MAX) :
    (VideoFrame.VideoFrame width height displayWidth displayHeight displayLeft displayTop
      tileWidth tileHeight angle bpp bitDepth hasData iccSize).1.mWidth = width ∧
    (VideoFrame.VideoFrame width height displayWidth displayHeight displayLeft displayTop
      tileWidth tileHeight angle bpp bitDepth hasData iccSize).1.mHeight = height ∧
    (VideoFrame.VideoFrame width height displayWidth displayHeight displayLeft displayTop
      tileWidth tileHeight angle bpp bitDepth hasData iccSize).1.mDisplayWidth = displayWidth ∧
    (VideoFrame.VideoFrame width height displayWidth displayHeight displayLeft displayTop
      tileWidth tileHeight angle bpp bitDepth hasData iccSize).1.mDisplayHeight = displayHeight ∧
    (VideoFrame.VideoFrame width height displayWidth displayHeight displayLeft displayTop
      tileWidth tileHeight angle bpp bitDepth hasData iccSize).1.mDisplayLeft = displayLeft ∧
    (VideoFrame.VideoFrame width height displayWidth displayHeight displayLeft displayTop
      tileWidth tileHeight angle bpp bitDepth hasData iccSize).1.mDisplayTop = displayTop ∧
    (VideoFrame.VideoFrame width height displayWidth displayHeight displayLeft displayTop
      tileWidth tileHeight angle bpp bitDepth hasData iccSize).1.mTileWidth = tileWidth ∧
    (VideoFrame.VideoFrame width height displayWidth displayHeight displayLeft displayTop
      tileWidth tileHeight angle bpp bitDepth hasData iccSize).1.mTileHeight = tileHeight ∧
    (VideoFrame.VideoFrame width height displayWidth displayHeight displayLeft displayTop
      tileWidth tileHeight angle bpp bitDepth hasData iccSize).1.mRotationAngle = (angle : Int) ∧
    (VideoFrame.VideoFrame width height displayWidth displayHeight displayLeft displayTop
      tileWidth tileHeight angle bpp bitDepth hasData iccSize).1.mBytesPerPixel = bpp ∧
    (VideoFrame.VideoFrame width height displayWidth displayHeight displayLeft displayTop
      tileWidth tileHeight angle bpp bitDepth hasData iccSize).1.mBitDepth = bitDepth ∧
    (VideoFrame.VideoFrame width height displayWidth displayHeight displayLeft displayTop
      tileWidth tileHeight angle bpp bitDepth hasData iccSize).1.mIccSize = iccSize ∧
    (VideoFrame.VideoFrame width height displayWidth displayHeight displayLeft displayTop
      tileWidth tileHeight angle bpp bitDepth hasData iccSize).1.mDurationUs = 0 := by
  rw [ctor_frame]
  refine ⟨rfl, rfl, rfl, rfl, rfl, rfl, rfl, rfl, toInt32_of_lt angle hangle, rfl, rfl, ?_, rfl⟩
  apply Nat.mod_eq_of_lt
  unfold UINT32_MAX at hicc
  omega

/-- C11 (amended) at `width = 1920`, `height = 1080`, display 1900x1000 at
(10, 40), tiles 512x512, `angle = 270`, `bpp = 4`, `bitDepth = 8`,
`iccSize = 560`. -/
theorem ctor_stores_arguments_witness :
    ((270 : Nat) < 2 ^ 31 ∧ 560 ≤ UINT32_MAX) ∧
    (VideoFrame.VideoFrame 1920 1080 1900 1000 10 40 512 512 270 4 8 true 560).1.mWidth = 1920 ∧
    (VideoFrame.VideoFrame 1920 1080 1900 1000 10 40 512 512 270 4 8 true 560).1.mRotationAngle
      = 270 ∧
    (VideoFrame.VideoFrame 1920 1080 1900 1000 10 40 512 512 270 4 8 true 560).1.mIccSize
      = 560 ∧
    (VideoFrame.VideoFrame 1920 1080 1900 1000 10 40 512 512 270 4 8 true 560).1.mDurationUs
      = 0 := by
  have h := ctor_stores_arguments 1920 1080 1900 1000 10 40 512 512 270 4 8 true 560
    (by decide) (by decide)
  exact ⟨by decide, h.1, h.2.2.2.2.2.2.2.2.1, h.2.2.2.2.2.2.2.2.2.2.2.1,
    h.2.2.2.2.2.2.2.2.2.2.2.2⟩

/-! ## `init` and the bounds of the backing buffer (C12) -/

/-- C12: for every receiver, source (with `size` and `iccSize` holding `uint32_t`
values), `profileData` (null, or with `profileSize` readable bytes when the
profile is attached) and `profileSize`, if the receiver's backing buffer has
length at least `headerSize + source.size + profileSize`, then the range
written by the profile copy, `profileSize` bytes from `getFlattenedIccData`
on, starts after the header and ends inside the buffer, `init` returns (the
out-of-bounds branch is not taken), the buffer keeps its length, and
afterwards `getFlattenedSize()` is at most the buffer length: exactly
`headerSize + source.size + profileSize` when the profile is attached and
`headerSize + source.size` when it is dropped. -/
theorem init_within_buffer (self : FlattenedVideoFrame) (copy : VideoFrame)
    (profileData : Option (List Byte)) (profileSize : Nat)
    (hbuf : sizeofVideoFrame + copy.mSize + profileSize ≤ self.bufferSize)
    (hsrc : ∀ bytes, profileData = some bytes → copy.mIccSize = profileSize →
      profileSize ≤ bytes.length)
    (hsize : copy.mSize ≤ UINT32_MAX) (hicc : copy.mIccSize ≤ UINT32_MAX) :
    sizeofVideoFrame ≤ copy.getFlattenedIccData ∧
    copy.getFlattenedIccData + profileSize ≤ self.bufferSize ∧
    ∃ r, VideoFrame.init self copy profileData profileSize = some r ∧
      r.bufferSize = self.bufferSize ∧
      r.frame.getFlattenedSize ≤ self.bufferSize ∧
      ((copy.mIccSize = profileSize ∧ profileSize > 0 ∧ profileData ≠ none) →
        r.frame.getFlattenedSize = sizeofVideoFrame + copy.mSize + profileSize) ∧
      (¬ (copy.mIccSize = profileSize ∧ profileSize > 0 ∧ profileData ≠ none) →
        r.frame.getFlattenedSize = sizeofVideoFrame + copy.mSize) := by
  have hb : sizeofVideoFrame + self.trailing.length = self.bufferSize := rfl
  have hptr : copy.getFlattenedIccData = sizeofVideoFrame + copy.mSize := by
    unfold VideoFrame.getFlattenedIccData
    omega
  refine ⟨by omega, by omega, ?_⟩
  by_cases hcond : copy.mIccSize = profileSize ∧ profileSize > 0 ∧ profileData ≠ none
  · obtain ⟨h1, h2, h3⟩ := hcond
    obtain ⟨bytes, hbytes⟩ := Option.ne_none_iff_exists'.mp h3
    have hread : profileSize ≤ (profileData.getD []).length := by
      rw [hbytes]
      exact hsrc bytes hbytes h1
    have hfs : copy.getFlattenedSize = sizeofVideoFrame + copy.mSize + profileSize := by
      rw [getFlattenedSize_exact copy hsize hicc, h1]
    refine ⟨_, init_attach_eq self copy profileData profileSize ⟨h1, h2, h3⟩ hbuf hread,
      ?_, ?_, fun _ => hfs, fun hn => absurd ⟨h1, h2, h3⟩ hn⟩
    · unfold FlattenedVideoFrame.bufferSize
      simp only [List.length_append, List.length_take, List.length_drop]
      omega
    · show copy.getFlattenedSize ≤ self.bufferSize
      omega
  · have hfs : VideoFrame.getFlattenedSize { copy with mIccSize := 0 } =
        sizeofVideoFrame + copy.mSize := by
      exact getFlattenedSize_exact { copy with mIccSize := 0 } hsize (Nat.zero_le _)
    refine ⟨_, init_drop_eq self copy profileData profileSize hcond, rfl, ?_,
      fun h => absurd h hcond, fun _ => hfs⟩
    show VideoFrame.getFlattenedSize { copy with mIccSize := 0 } ≤ self.bufferSize
    omega

/-- C12 at a source with `size = 4`, `iccSize = 10`, ten profile bytes and a
receiver with 14 bytes after its header: the flattened size afterwards is 78,
the length of the buffer. -/
theorem init_within_buffer_witness :
    (sizeofVideoFrame + (VideoFrame.VideoFrame 1 1 1 1 0 0 0 0 0 4 8 true 10).1.mSize + 10 ≤ FlattenedVideoFrame.bufferSize ⟨(VideoFrame.VideoFrame 2 2 2 2 0 0 0 0 0 1 8 true 3).1, List.replicate 14 0⟩ ∧
      (VideoFrame.VideoFrame 1 1 1 1 0 0 0 0 0 4 8 true 10).1.mSize ≤ UINT32_MAX ∧ (VideoFrame.VideoFrame 1 1 1 1 0 0 0 0 0 4 8 true 10).1.mIccSize ≤ UINT32_MAX) ∧
    ∃ r, VideoFrame.init ⟨(VideoFrame.VideoFrame 2 2 2 2 0 0 0 0 0 1 8 true 3).1, List.replicate 14 0⟩ (VideoFrame.VideoFrame 1 1 1 1 0 0 0 0 0 4 8 true 10).1 (some [1, 2, 3, 4, 5, 6, 7, 8, 9, 10]) 10 = some r ∧
      r.frame.getFlattenedSize ≤ FlattenedVideoFrame.bufferSize ⟨(VideoFrame.VideoFrame 2 2 2 2 0 0 0 0 0 1 8 true 3).1, List.replicate 14 0⟩ ∧
      r.frame.getFlattenedSize = 78 := by
  have hsrc : ∀ bytes : List Byte, some [1, 2, 3, 4, 5, 6, 7, 8, 9, 10] = some bytes →
      (VideoFrame.VideoFrame 1 1 1 1 0 0 0 0 0 4 8 true 10).1.mIccSize = 10 → 10 ≤ bytes.length := by
    intro bytes hb _
    rw [← Option.some.inj hb]
    decide
  obtain ⟨_, _, r, hr, _, hle, hatt, _⟩ :=
    init_within_buffer ⟨(VideoFrame.VideoFrame 2 2 2 2 0 0 0 0 0 1 8 true 3).1, List.replicate 14 0⟩ (VideoFrame.VideoFrame 1 1 1 1 0 0 0 0 0 4 8 true 10).1 (some [1, 2, 3, 4, 5, 6, 7, 8, 9, 10]) 10
      (by decide) hsrc (by decide) (by decide)
  exact ⟨by decide, r, hr, hle, hatt (by decide)⟩

/-! ## Pixel round trip through the flattened layout (C13) -/

theorem memcpy_pixels_eq (self : FlattenedVideoFrame) (pixels : List Byte)
    (hbuf : sizeofVideoFrame + self.frame.mSize ≤ self.bufferSize)
    (hlen : pixels.length = self.frame.mSize) :
    memcpy self self.frame.getFlattenedData pixels self.frame.mSize =
      some { frame := self.frame,
             trailing := pixels ++ self.trailing.drop self.frame.mSize } := by
  unfold memcpy VideoFrame.getFlattenedData
  rw [if_pos ⟨by omega, by omega, by omega⟩]
  have h0 : 0 + sizeofVideoFrame - sizeofVideoFrame = 0 := by omega
  have hp : List.take self.frame.mSize pixels = pixels := List.take_of_length_le (by omega)
  rw [h0, hp, List.take_zero, List.nil_append, Nat.zero_add]

/-- C13: for every descriptor (with `size` and `iccSize` holding `uint32_t`
values; `size` may or may not be the sentinel) resident in a backing buffer
of at least `getFlattenedSize()` bytes, and every sequence of exactly `size`
bytes, writing the sequence at `getFlattenedData` succeeds and leaves the
header as it was; reading `size` bytes back at offset `headerSize`, a range
that ends within `getFlattenedSize()`, returns the sequence exactly; and
every byte from the start of the profile region on is unchanged, so that
the profile region reads as before. -/
theorem pixel_round_trip (self : FlattenedVideoFrame) (pixels : List Byte)
    (hsize : self.frame.mSize ≤ UINT32_MAX) (hicc : self.frame.mIccSize ≤ UINT32_MAX)
    (hbuf : self.frame.getFlattenedSize ≤ self.bufferSize)
    (hlen : pixels.length = self.frame.mSize) :
    ∃ r, memcpy self self.frame.getFlattenedData pixels self.frame.mSize = some r ∧
      r.frame = self.frame ∧
      sizeofVideoFrame + r.frame.mSize ≤ r.frame.getFlattenedSize ∧
      r.readBytes sizeofVideoFrame r.frame.mSize = some pixels ∧
      r.trailing.drop self.frame.mSize = self.trailing.drop self.frame.mSize ∧
      r.readBytes r.frame.getFlattenedIccData r.frame.mIccSize =
        self.readBytes self.frame.getFlattenedIccData self.frame.mIccSize := by
  have hfs := getFlattenedSize_exact self.frame hsize hicc
  have hb : sizeofVideoFrame + self.trailing.length = self.bufferSize := rfl
  have hdrop : (pixels ++ self.trailing.drop self.frame.mSize).drop self.frame.mSize =
      self.trailing.drop self.frame.mSize := List.drop_left' hlen
  refine ⟨_, memcpy_pixels_eq self pixels (by omega) hlen, rfl, ?_, ?_, hdrop, ?_⟩
  · show sizeofVideoFrame + self.frame.mSize ≤ self.frame.getFlattenedSize
    omega
  · unfold FlattenedVideoFrame.readBytes FlattenedVideoFrame.bufferSize
    simp only [List.length_append, List.length_drop]
    rw [if_pos ⟨by omega, by omega⟩, Nat.sub_self, List.drop_zero, List.take_left' hlen]
  · unfold FlattenedVideoFrame.readBytes FlattenedVideoFrame.bufferSize
      VideoFrame.getFlattenedIccData
    simp only [List.length_append, List.length_drop]
    have hsub : 0 + sizeofVideoFrame + self.frame.mSize - sizeofVideoFrame =
        self.frame.mSize := by omega
    rw [hsub, hdrop, if_pos ⟨by omega, by omega⟩, if_pos ⟨by omega, by omega⟩]

/-- C13 at the scenario of the specification: `width = 100`, `height = 50`,
`bytesPerPixel = 4` (so `size = 20000`), a buffer of 20000 bytes after the
header, and 20000 pixel bytes of value 7. -/
theorem pixel_round_trip_witness :
    ((VideoFrame.VideoFrame 100 50 100 50 0 0 0 0 0 4 8 true 0).1.mSize = 20000 ∧ (VideoFrame.VideoFrame 100 50 100 50 0 0 0 0 0 4 8 true 0).1.mSize ≤ UINT32_MAX ∧ (VideoFrame.VideoFrame 100 50 100 50 0 0 0 0 0 4 8 true 0).1.mIccSize ≤ UINT32_MAX) ∧
    ∃ r, memcpy ⟨(VideoFrame.VideoFrame 100 50 100 50 0 0 0 0 0 4 8 true 0).1, List.replicate 20000 0⟩ (VideoFrame.VideoFrame 100 50 100 50 0 0 0 0 0 4 8 true 0).1.getFlattenedData (List.replicate 20000 7)
        (VideoFrame.VideoFrame 100 50 100 50 0 0 0 0 0 4 8 true 0).1.mSize = some r ∧
      r.readBytes sizeofVideoFrame r.frame.mSize = some (List.replicate 20000 7) := by
  have hbuf : (VideoFrame.VideoFrame 100 50 100 50 0 0 0 0 0 4 8 true 0).1.getFlattenedSize ≤
      FlattenedVideoFrame.bufferSize ⟨(VideoFrame.VideoFrame 100 50 100 50 0 0 0 0 0 4 8 true 0).1, List.replicate 20000 0⟩ := by
    unfold FlattenedVideoFrame.bufferSize
    rw [List.length_replicate]
    decide
  have hlen : (List.replicate 20000 (7 : Byte)).length = (VideoFrame.VideoFrame 100 50 100 50 0 0 0 0 0 4 8 true 0).1.mSize := by
    rw [List.length_replicate]
    decide
  obtain ⟨r, hr, _, _, hread, _⟩ :=
    pixel_round_trip ⟨(VideoFrame.VideoFrame 100 50 100 50 0 0 0 0 0 4 8 true 0).1, List.replicate 20000 0⟩ (List.replicate 20000 7)
      (by decide) (by decide) hbuf hlen
  exact ⟨by decide, r, hr, hread⟩

/-! ## Derived sizes after construction (C14, C15) -/

theorem init_frame_cases (self : FlattenedVideoFrame) (copy : VideoFrame)
    (iccData : Option (List Byte)) (iccSize : Nat) (r : FlattenedVideoFrame)
    (h : VideoFrame.init self copy iccData iccSize = some r) :
    r.frame = copy ∨ r.frame = { copy with mIccSize := 0 } := by
  unfold VideoFrame.init at h
  simp only [] at h
  split_ifs at h with hcond
  · unfold memcpy at h
    split_ifs at h
    rw [← Option.some.inj h]
    exact Or.inl rfl
  · rw [← Option.some.inj h]
    exact Or.inr rfl

/-- C14 (as stated, refuted): a descriptor constructed for a 2x3 frame of 1 byte
per pixel has `rowBytes = 2` and `size = 6`; after `init` with a source
constructed for a 1x1 frame of 4 bytes per pixel (null profile) its
`rowBytes` and `size` are both 4. -/
theorem init_changes_derived_sizes :
    (VideoFrame.VideoFrame 2 3 2 3 0 0 0 0 0 1 8 true 0).1.mRowBytes = 2 ∧ (VideoFrame.VideoFrame 2 3 2 3 0 0 0 0 0 1 8 true 0).1.mSize = 6 ∧
    (VideoFrame.init ⟨(VideoFrame.VideoFrame 2 3 2 3 0 0 0 0 0 1 8 true 0).1, []⟩ (VideoFrame.VideoFrame 1 1 1 1 0 0 0 0 0 4 8 true 0).1 none 0).map (fun r => (r.frame.mRowBytes, r.frame.mSize))
      = some (4, 4) := by
  decide

/-- C14 (amended): the accessors are functions of the descriptor that return a
number and no new state, and whenever `init(source, profileData,
profileSize)` is defined (when the profile is attached, the buffer holds it
and `profileData` has `profileSize` readable bytes) it returns and replaces
the receiver's `rowBytes` and `size` by those of the source; they keep the
receiver's previous values exactly when the source carries the same
`rowBytes` and `size`. -/
theorem init_replaces_derived_sizes (self : FlattenedVideoFrame) (copy : VideoFrame)
    (profileData : Option (List Byte)) (profileSize : Nat)
    (hbuf : copy.mIccSize = profileSize → 0 < profileSize → profileData ≠ none →
      sizeofVideoFrame + copy.mSize + profileSize ≤ self.bufferSize)
    (hsrc : ∀ bytes, profileData = some bytes → copy.mIccSize = profileSize →
      profileSize ≤ bytes.length) :
    ∃ r, VideoFrame.init self copy profileData profileSize = some r ∧
      r.frame.mRowBytes = copy.mRowBytes ∧ r.frame.mSize = copy.mSize ∧
      ((r.frame.mRowBytes = self.frame.mRowBytes ∧ r.frame.mSize = self.frame.mSize) ↔
        (copy.mRowBytes = self.frame.mRowBytes ∧ copy.mSize = self.frame.mSize)) := by
  by_cases hcond : copy.mIccSize = profileSize ∧ profileSize > 0 ∧ profileData ≠ none
  · obtain ⟨h1, h2, h3⟩ := hcond
    obtain ⟨bytes, hbytes⟩ := Option.ne_none_iff_exists'.mp h3
    refine ⟨_, init_attach_eq self copy profileData profileSize ⟨h1, h2, h3⟩
      (hbuf h1 h2 h3) ?_, rfl, rfl, Iff.rfl⟩
    rw [hbytes]
    exact hsrc bytes hbytes h1
  · exact ⟨_, init_drop_eq self copy profileData profileSize hcond, rfl, rfl, Iff.rfl⟩

/-- C14 (amended) at a receiver constructed for a 2x3 frame of 1 byte per pixel
and a source constructed for a 1x1 frame of 4 bytes per pixel, with a null
profile. -/
theorem init_replaces_derived_sizes_witness :
    ∃ r, VideoFrame.init ⟨(VideoFrame.VideoFrame 2 3 2 3 0 0 0 0 0 1 8 true 0).1, []⟩ (VideoFrame.VideoFrame 1 1 1 1 0 0 0 0 0 4 8 true 0).1 none 0 = some r ∧
      r.frame.mRowBytes = 4 ∧ r.frame.mSize = 4 := by
  obtain ⟨r, hr, h1, h2, _⟩ := init_replaces_derived_sizes ⟨(VideoFrame.VideoFrame 2 3 2 3 0 0 0 0 0 1 8 true 0).1, []⟩ (VideoFrame.VideoFrame 1 1 1 1 0 0 0 0 0 4 8 true 0).1 none 0
    (fun _ h => absurd h (by decide)) (fun _ h => absurd h (by simp))
  exact ⟨r, hr, h1, h2⟩

theorem reachable_inv (f : VideoFrame) (h : Reachable f) :
    (f.mRowBytes ≠ 0 → f.mSize ≠ 0 →
      f.mRowBytes = f.mBytesPerPixel * f.mWidth ∧
      f.mSize = f.mBytesPerPixel * f.mWidth * f.mHeight) ∧
    f.mSize ≤ UINT32_MAX ∧ f.mIccSize ≤ UINT32_MAX := by
  induction h with
  | ctor width height displayWidth displayHeight displayLeft displayTop tileWidth tileHeight
      angle bpp bitDepth hasData iccSize =>
    rw [ctor_frame]
    simp only []
    refine ⟨?_, ?_, ?_⟩
    · intro hrow hsz
      by_cases h1 : UINT32_MAX < bpp * width
      · rw [if_pos h1] at hrow
        exact absurd rfl hrow
      · have hmod : bpp * width % 2 ^ 32 = bpp * width := by
          apply Nat.mod_eq_of_lt
          unfold UINT32_MAX at h1
          omega
        rw [hmod] at hsz ⊢
        rw [if_neg h1]
        by_cases h2 : UINT32_MAX < bpp * width * height
        · rw [if_pos h2] at hsz
          exact absurd rfl hsz
        · rw [if_neg h2]
          refine ⟨rfl, ?_⟩
          apply Nat.mod_eq_of_lt
          unfold UINT32_MAX at h2
          omega
    · unfold UINT32_MAX
      split_ifs <;> omega
    · unfold UINT32_MAX
      omega
  | init self copy iccData iccSize r _ hinit ih =>
    rcases init_frame_cases self copy iccData iccSize r hinit with hr | hr
    · rw [hr]
      exact ih
    · rw [hr]
      exact ⟨ih.1, ih.2.1, Nat.zero_le _⟩

/-- C15: for every descriptor obtained from the constructor, or as the receiver's
header after `init` with such a descriptor as source, if `rowBytes != 0` and
`size != 0` then `rowBytes` is the exact product `bytesPerPixel*width`,
`size` is the exact product `bytesPerPixel*width*height`, and
`getFlattenedSize() - headerSize - iccSize` is room for `height` rows of
`rowBytes` bytes; and whenever the exact product
`bytesPerPixel*width*height` exceeds 2^32-1, `rowBytes` or `size` is 0. -/
theorem reachable_sizes_sound (f : VideoFrame) (h : Reachable f) :
    (f.mRowBytes ≠ 0 → f.mSize ≠ 0 →
      f.mRowBytes = f.mBytesPerPixel * f.mWidth ∧
      f.mSize = f.mBytesPerPixel * f.mWidth * f.mHeight ∧
      f.mHeight * f.mRowBytes ≤ f.getFlattenedSize - sizeofVideoFrame - f.mIccSize) ∧
    (UINT32_MAX < f.mBytesPerPixel * f.mWidth * f.mHeight →
      f.mRowBytes = 0 ∨ f.mSize = 0) := by
  obtain ⟨hex, hsize, hicc⟩ := reachable_inv f h
  have hfs := getFlattenedSize_exact f hsize hicc
  constructor
  · intro hrow hsz
    obtain ⟨h1, h2⟩ := hex hrow hsz
    refine ⟨h1, h2, ?_⟩
    have hroom : f.getFlattenedSize - sizeofVideoFrame - f.mIccSize = f.mSize := by omega
    rw [hroom, h2, h1, Nat.mul_comm]
  · intro hover
    by_contra hne
    push_neg at hne
    obtain ⟨_, h2⟩ := hex hne.1 hne.2
    omega

/-- C15 at a constructed descriptor (`width = 100`, `height = 50`,
`bytesPerPixel = 4`, `iccSize = 10`): `rowBytes = 400`, `size = 20000`, and
the room left after header and profile holds 50 rows of 400 bytes. -/
theorem reachable_sizes_sound_witness :
    Reachable (VideoFrame.VideoFrame 100 50 100 50 0 0 0 0 0 4 8 true 10).1 ∧
    (VideoFrame.VideoFrame 100 50 100 50 0 0 0 0 0 4 8 true 10).1.mRowBytes = (VideoFrame.VideoFrame 100 50 100 50 0 0 0 0 0 4 8 true 10).1.mBytesPerPixel * (VideoFrame.VideoFrame 100 50 100 50 0 0 0 0 0 4 8 true 10).1.mWidth ∧
    (VideoFrame.VideoFrame 100 50 100 50 0 0 0 0 0 4 8 true 10).1.mSize = (VideoFrame.VideoFrame 100 50 100 50 0 0 0 0 0 4 8 true 10).1.mBytesPerPixel * (VideoFrame.VideoFrame 100 50 100 50 0 0 0 0 0 4 8 true 10).1.mWidth * (VideoFrame.VideoFrame 100 50 100 50 0 0 0 0 0 4 8 true 10).1.mHeight ∧
    (VideoFrame.VideoFrame 100 50 100 50 0 0 0 0 0 4 8 true 10).1.mHeight * (VideoFrame.VideoFrame 100 50 100 50 0 0 0 0 0 4 8 true 10).1.mRowBytes ≤ (VideoFrame.VideoFrame 100 50 100 50 0 0 0 0 0 4 8 true 10).1.getFlattenedSize - sizeofVideoFrame - (VideoFrame.VideoFrame 100 50 100 50 0 0 0 0 0 4 8 true 10).1.mIccSize :=
  ⟨Reachable.ctor 100 50 100 50 0 0 0 0 0 4 8 true 10,
   (reachable_sizes_sound (VideoFrame.VideoFrame 100 50 100 50 0 0 0 0 0 4 8 true 10).1 (Reachable.ctor 100 50 100 50 0 0 0 0 0 4 8 true 10)).1
     (by decide) (by decide)⟩

/-! ## `init` and the bytes outside the profile region (C16) -/

theorem spliced_length (l src : List Byte) (a n : Nat) (ha : a + n ≤ l.length)
    (hn : n ≤ src.length) :
    (l.take a ++ src.take n ++ l.drop (a + n)).length = l.length := by
  simp only [List.length_append, List.length_take, List.length_drop]
  omega

theorem spliced_getElem?_outside (l src : List Byte) (a n i : Nat) (ha : a + n ≤ l.length)
    (hn : n ≤ src.length) (hi : i < a ∨ a + n ≤ i) :
    (l.take a ++ src.take n ++ l.drop (a + n))[i]? = l[i]? := by
  have hA : (l.take a).length = a := by
    rw [List.length_take]
    omega
  have hB : (src.take n).length = n := by
    rw [List.length_take]
    omega
  rcases hi with hi | hi
  · rw [List.append_assoc, List.getElem?_append_left (by omega),
      List.getElem?_take_of_lt hi]
  · have hAB : (l.take a ++ src.take n).length = a + n := by
      rw [List.length_append, hA, hB]
    rw [List.getElem?_append_right (by omega), hAB, List.getElem?_drop]
    congr 1
    omega

theorem spliced_take (l src : List Byte) (a n : Nat) (ha : a + n ≤ l.length) :
    (l.take a ++ src.take n ++ l.drop (a + n)).take a = l.take a := by
  have hA : (l.take a).length = a := by
    rw [List.length_take]
    omega
  rw [List.append_assoc, List.take_left' hA]

theorem readBytes_pixels_congr (x y : FlattenedVideoFrame) (m : Nat)
    (hlen : x.trailing.length = y.trailing.length)
    (htake : x.trailing.take m = y.trailing.take m) :
    x.readBytes sizeofVideoFrame m = y.readBytes sizeofVideoFrame m := by
  unfold FlattenedVideoFrame.readBytes FlattenedVideoFrame.bufferSize
  rw [Nat.sub_self, List.drop_zero, List.drop_zero, hlen, htake]

/-- C16: for every receiver, source, `profileData` and `profileSize` for which
the call is defined (when the profile is attached, the receiver's backing
buffer holds `headerSize + source.size + profileSize` bytes and `profileData`
has `profileSize` readable bytes), `init` returns, the buffer keeps its
length, and every byte after the header whose offset `headerSize + i` lies
outside `[headerSize + source.size, headerSize + source.size + profileSize)`
is unchanged; in particular the pixel region `[headerSize, headerSize +
source.size)` reads the same before and after the call. -/
theorem init_leaves_other_bytes (self : FlattenedVideoFrame) (copy : VideoFrame)
    (profileData : Option (List Byte)) (profileSize : Nat)
    (hbuf : copy.mIccSize = profileSize → 0 < profileSize → profileData ≠ none →
      sizeofVideoFrame + copy.mSize + profileSize ≤ self.bufferSize)
    (hsrc : ∀ bytes, profileData = some bytes → copy.mIccSize = profileSize →
      profileSize ≤ bytes.length) :
    ∃ r, VideoFrame.init self copy profileData profileSize = some r ∧
      r.trailing.length = self.trailing.length ∧
      (∀ i, i < copy.mSize ∨ copy.mSize + profileSize ≤ i →
        r.trailing[i]? = self.trailing[i]?) ∧
      r.trailing.take copy.mSize = self.trailing.take copy.mSize ∧
      r.readBytes sizeofVideoFrame copy.mSize = self.readBytes sizeofVideoFrame copy.mSize := by
  by_cases hcond : copy.mIccSize = profileSize ∧ profileSize > 0 ∧ profileData ≠ none
  · obtain ⟨h1, h2, h3⟩ := hcond
    obtain ⟨bytes, hbytes⟩ := Option.ne_none_iff_exists'.mp h3
    have hread : profileSize ≤ (profileData.getD []).length := by
      rw [hbytes]
      exact hsrc bytes hbytes h1
    have hb : sizeofVideoFrame + self.trailing.length = self.bufferSize := rfl
    have hfit : copy.mSize + profileSize ≤ self.trailing.length := by
      have := hbuf h1 h2 h3
      omega
    have hlen := spliced_length self.trailing (profileData.getD []) copy.mSize profileSize
      hfit hread
    have htake := spliced_take self.trailing (profileData.getD []) copy.mSize profileSize hfit
    refine ⟨_, init_attach_eq self copy profileData profileSize ⟨h1, h2, h3⟩
      (hbuf h1 h2 h3) hread, hlen, ?_, htake, ?_⟩
    · intro i hi
      exact spliced_getElem?_outside self.trailing (profileData.getD []) copy.mSize
        profileSize i hfit hread hi
    · exact readBytes_pixels_congr _ self copy.mSize hlen htake
  · exact ⟨_, init_drop_eq self copy profileData profileSize hcond, rfl, fun _ _ => rfl,
      rfl, rfl⟩

/-- C16 at a call that attaches a profile of 2 bytes after a pixel region of 4
bytes, in a receiver with 7 bytes after its header: bytes 0..3 and byte 6 of
the seven are unchanged. -/
theorem init_leaves_other_bytes_witness :
    (sizeofVideoFrame + (VideoFrame.VideoFrame 1 1 1 1 0 0 0 0 0 4 8 true 2).1.mSize + 2 ≤ FlattenedVideoFrame.bufferSize ⟨(VideoFrame.VideoFrame 2 2 2 2 0 0 0 0 0 1 8 true 3).1, [1, 2, 3, 4, 5, 6, 7]⟩) ∧
    ∃ r, VideoFrame.init ⟨(VideoFrame.VideoFrame 2 2 2 2 0 0 0 0 0 1 8 true 3).1, [1, 2, 3, 4, 5, 6, 7]⟩ (VideoFrame.VideoFrame 1 1 1 1 0 0 0 0 0 4 8 true 2).1 (some [9, 8]) 2 = some r ∧
      r.trailing.length = 7 ∧
      r.trailing.take 4 = [1, 2, 3, 4] ∧
      r.trailing[6]? = some 7 := by
  have hsrc : ∀ bytes : List Byte, some [9, 8] = some bytes →
      (VideoFrame.VideoFrame 1 1 1 1 0 0 0 0 0 4 8 true 2).1.mIccSize = 2 → 2 ≤ bytes.length := by
    intro bytes hb _
    rw [← Option.some.inj hb]
    decide
  obtain ⟨r, hr, hlen, hout, htake, _⟩ :=
    init_leaves_other_bytes ⟨(VideoFrame.VideoFrame 2 2 2 2 0 0 0 0 0 1 8 true 3).1, [1, 2, 3, 4, 5, 6, 7]⟩ (VideoFrame.VideoFrame 1 1 1 1 0 0 0 0 0 4 8 true 2).1 (some [9, 8]) 2 (fun _ _ _ => by decide) hsrc
  exact ⟨by decide, r, hr, hlen, htake, hout 6 (Or.inr (by decide))⟩

end android
